import Mathlib

/-!
Verification of the flask-sample-app repository.

The repository contains three parts:
* an HTTP "Item Service" holding a process-wide list of JSON items
  (the application module itself is consumed by the tests via
  `from app import app`; its behavior is modelled here from the
  specification, section 4.1);
* `compile_all.py`, a syntax checker that walks directories and
  byte-compiles every Python file (embedded here from the source);
* `tests/test_integration_fail.py`, whose `base_url` fixture polls a
  configured port (embedded here from the source).

Machine-level details (HTTP transport, threads, real time) are abstracted:
requests are values of an inductive type, the store is a Lean list, and the
compile oracle is a function from paths to an optional error message.
-/

/-- A JSON value: null, boolean, number, string, array, or object.
Numbers are modelled as integers, which is enough for every value the
repository's tests and spec mention; field order in objects is kept, as JSON
texts received over HTTP have ordered fields. -/
inductive Json where
  | null
  | bool (b : Bool)
  | num (n : Int)
  | str (s : String)
  | arr (elems : List Json)
  | obj (fields : List (String × Json))
deriving Repr

/-- The body of an HTTP response: either plain text or a JSON document. -/
inductive Body where
  | text (s : String)
  | json (j : Json)
deriving Repr

/-- An HTTP response: a numeric status code and a body. -/
structure Response where
  status : Nat
  body : Body
deriving Repr

/-- A request to the Item Service.  `postItems` carries `some v` when the
request body parsed as the JSON value `v` and `none` when the body was not
valid JSON; `getItem` carries the raw path segment after `/items/`, so that
route matching itself can be modelled. -/
inductive Req where
  | getRoot
  | getItems
  | postItems (body : Option Json)
  | getItem (seg : String)

/-- Modelled from the spec: the Item Store is "an ordered sequence of Items,
process-wide, initialized empty at process start, mutated only by appends". -/
def emptyStore : List Json := []

/-- Modelled from the spec: success body of POST /items,
`{"message": "Item added successfully"}`. -/
def addedMsg : Json := .obj [("message", .str "Item added successfully")]

/-- Modelled from the spec: not-found body of GET /items/<index>,
`{"error": "Item not found"}`. -/
def notFoundJson : Json := .obj [("error", .str "Item not found")]

/-- Modelled from the spec: response to an unmatched route — "status 404 with
no specified body contract beyond 'not the JSON error shape used by
/items/<index>'".  The body is the framework's plain-text not-found page. -/
def notFoundGeneric : Response := ⟨404, .text "Not Found"⟩

/-- Modelled from the spec: GET / returns the fixed plain-text body
"Hello, Flask!" with status 200. -/
def handleRoot : Response := ⟨200, .text "Hello, Flask!"⟩

/-- Modelled from the spec: GET /items returns "a JSON object with one field,
`items`, containing the full ordered sequence of stored items", status 200. -/
def handleGetItems (store : List Json) : Response :=
  ⟨200, .json (.obj [("items", .arr store)])⟩

/-- Modelled from the spec: POST /items — a body parsed as JSON "is appended
to the end of the Item Store, unmodified" with status 201 and the success
message; "if the body is not valid JSON, the service signals a
`MalformedRequest` failure; the item is not appended", surfaced as a client
error status ("400 (or framework default)"). -/
def handlePostItems (store : List Json) (body : Option Json) :
    List Json × Response :=
  match body with
  | some v => (store ++ [v], ⟨201, .json addedMsg⟩)
  | none => (store, ⟨400, .text "Bad Request"⟩)

/-- Modelled from the spec: GET /items/<index> with a routed non-negative
index — "if `0 <= index < len(store)`, return that item" as
`{"item": <stored value>}` with 200, "otherwise return a not-found error"
`{"error": "Item not found"}` with 404. -/
def handleGetItem (store : List Json) (i : Nat) : Response :=
  match store[i]? with
  | some v => ⟨200, .json (.obj [("item", v)])⟩
  | none => ⟨404, .json notFoundJson⟩

/-- Decimal value of a digit string (helper for route matching). -/
def digitsToNat (s : String) : Nat :=
  s.data.foldl (fun acc c => acc * 10 + (c.toNat - 48)) 0

/-- Modelled from the spec: the `<index>` route segment — "only non-negative
integer literals match this route (negative numbers or non-numeric segments
do not match the route pattern at all)".  A segment matches exactly when it
is a nonempty string of decimal digits. -/
def parseIndex (s : String) : Option Nat :=
  if !s.data.isEmpty && s.data.all Char.isDigit then some (digitsToNat s) else none

/-- Modelled from the spec: one request handled against the current store,
returning the new store and the response.  GET requests leave the store
unchanged; a `/items/<seg>` request whose segment does not match the
non-negative-integer route pattern falls through to the generic not-found
behavior, never reaching the item handler. -/
def step (store : List Json) : Req → List Json × Response
  | .getRoot => (store, handleRoot)
  | .getItems => (store, handleGetItems store)
  | .postItems b => handlePostItems store b
  | .getItem seg =>
    (store,
      match parseIndex seg with
      | some i => handleGetItem store i
      | none => notFoundGeneric)

/-- The store after a sequence of requests has been handled in order. -/
def runAll (store : List Json) (reqs : List Req) : List Json :=
  reqs.foldl (fun s r => (step s r).1) store

/-- A request that only reads: everything except POST /items. -/
def isRead : Req → Bool
  | .postItems _ => false
  | _ => true

/-! ## The compile checker, `compile_all.py`

Embedded from the source.  A directory is a tree of named subdirectories and
file names; `os.walk` from the top directory visits the directory itself
first, then its kept subdirectories in order, and `compile_all.py` prunes
every subdirectory named `__pycache__` before descending
(`dirs[:] = [d for d in dirs if d != '__pycache__']`).  `py_compile.compile`
is abstracted as an oracle from the file path (a list of components) to
`none` on success or `some msg` on a `PyCompileError`. -/

/-- A directory tree: the files directly inside it and its named
subdirectories. -/
inductive FTree where
  | node (files : List String) (subdirs : List (String × FTree))

/-- The files of a directory node. -/
def FTree.files : FTree → List String
  | .node fs _ => fs

/-- The subdirectories of a directory node. -/
def FTree.subdirs : FTree → List (String × FTree)
  | .node _ ds => ds

/-- Embeds the inner `for file in files` loop of `compile_python_files`:
each name ending in `.py` is compiled at path `pre ++ [file]`; successes
are counted, failures are collected as `(file_path, message)` pairs in
traversal order, and other files are skipped. -/
def compileFilesAt (res : List String → Option String) (pre : List String) :
    List String → Nat × List (List String × String)
  | [] => (0, [])
  | f :: rest =>
    if f.endsWith ".py" then
      match res (pre ++ [f]) with
      | none =>
        let r := compileFilesAt res pre rest
        (r.1 + 1, r.2)
      | some e =>
        let r := compileFilesAt res pre rest
        (r.1, (pre ++ [f], e) :: r.2)
    else compileFilesAt res pre rest

mutual

/-- Embeds `compile_python_files(directory)`: walk the tree rooted at path
`pre`, compiling the `.py` files of each visited directory and returning
`(compiled, errors)`.  Subdirectories named `__pycache__` are pruned and
never descended into. -/
def compile_python_files (res : List String → Option String) (pre : List String) :
    FTree → Nat × List (List String × String)
  | .node fs ds =>
    let fr := compileFilesAt res pre fs
    let dr := compile_python_subdirs res pre ds
    (fr.1 + dr.1, fr.2 ++ dr.2)

/-- The walk over a directory's subdirectory list, skipping `__pycache__`. -/
def compile_python_subdirs (res : List String → Option String) (pre : List String) :
    List (String × FTree) → Nat × List (List String × String)
  | [] => (0, [])
  | (n, t) :: rest =>
    if n = "__pycache__" then compile_python_subdirs res pre rest
    else
      let a := compile_python_files res (pre ++ [n]) t
      let b := compile_python_subdirs res pre rest
      (a.1 + b.1, a.2 ++ b.2)

end

mutual

/-- All files anywhere in the tree, each as (directory components relative to
the root, file name), with no pruning.  This is the "specification" view the
walk is compared against. -/
def relFiles : FTree → List (List String × String)
  | .node fs ds => fs.map (fun f => ([], f)) ++ relFilesSubdirs ds

/-- All files under a subdirectory list, as (relative directory components,
file name). -/
def relFilesSubdirs : List (String × FTree) → List (List String × String)
  | [] => []
  | (n, t) :: rest =>
    (relFiles t).map (fun q => (n :: q.1, q.2)) ++ relFilesSubdirs rest

end

/-- A file (given as relative directory components and name) that the checker
is meant to compile: its name ends in `.py` and no directory on its relative
path is named `__pycache__`. -/
def eligiblePy (q : List String × String) : Bool :=
  q.2.endsWith ".py" && !(q.1.contains "__pycache__")

/-- Embeds the `__main__` block of `compile_all.py`: compile `run.py` when it
exists, then walk the `app` and `tests` directories when they exist
(`none` models a missing directory), accumulating `(total_compiled,
all_errors)`. -/
def mainRun (res : List String → Option String) (runPy : Bool)
    (appDir testsDir : Option FTree) : Nat × List (List String × String) :=
  let r0 : Nat × List (List String × String) :=
    if runPy then
      match res ["run.py"] with
      | none => (1, [])
      | some e => (0, [(["run.py"], e)])
    else (0, [])
  let rApp := match appDir with
    | some t => compile_python_files res ["app"] t
    | none => (0, [])
  let rTests := match testsDir with
    | some t => compile_python_files res ["tests"] t
    | none => (0, [])
  (r0.1 + rApp.1 + rTests.1, r0.2 ++ rApp.2 ++ rTests.2)

/-- Embeds the exit of `compile_all.py`: `sys.exit(1)` when `all_errors` is
nonempty, `sys.exit(0)` otherwise. -/
def mainExitCode (res : List String → Option String) (runPy : Bool)
    (appDir testsDir : Option FTree) : Nat :=
  if (mainRun res runPy appDir testsDir).2 = [] then 0 else 1

/-! ## The `base_url` test fixture

Embedded from `tests/test_integration_fail.py`.  The fixture never launches
a server (the `threading` import is unused); it loops
`for _ in range(4)`, issuing `GET /` against the configured port; a response
with status 200 breaks the loop, any other response or a connection
exception lets the loop continue, and the `for`/`else` clause raises
`RuntimeError` when all four attempts pass without a break.  Attempt `i` is
abstracted as `att i`: `none` when `requests.get` raised, `some code` for a
response with that status code. -/

/-- Outcome of the `base_url` fixture: it either yields the base URL to the
tests or raises `RuntimeError`. -/
inductive FixtureOutcome where
  | yields (url : String)
  | raisesRuntimeError
deriving Repr, DecidableEq

/-- The retry loop of the fixture: starting at attempt `i` with `k` attempts
left, report whether some attempt returned status 200 (a `break`). -/
def tryServer (att : Nat → Option Nat) : Nat → Nat → Bool
  | _, 0 => false
  | i, k + 1 =>
    match att i with
    | some code => if code = 200 then true else tryServer att (i + 1) k
    | none => tryServer att (i + 1) k

/-- The `base_url` fixture: four attempts at most; on a break it yields
`http://localhost:<port>`, otherwise it raises. -/
def base_url (att : Nat → Option Nat) (port : Nat) : FixtureOutcome :=
  if tryServer att 0 4 then
    .yields ("http://localhost:" ++ toString port)
  else .raisesRuntimeError

/-! ## Theorems about the Item Service -/

/-- The store component of a read request is the store itself. -/
theorem step_fst_of_read (store : List Json) (r : Req) (h : isRead r = true) :
    (step store r).1 = store := by
  cases r with
  | getRoot => rfl
  | getItems => rfl
  | getItem seg => rfl
  | postItems b => simp [isRead] at h

/-- Handling any single request never shrinks the store. -/
theorem length_le_step (store : List Json) (r : Req) :
    store.length ≤ (step store r).1.length := by
  cases r with
  | getRoot => exact Nat.le_refl _
  | getItems => exact Nat.le_refl _
  | getItem seg => exact Nat.le_refl _
  | postItems b => cases b <;> simp [step, handlePostItems]

/-- Handling a sequence of requests never shrinks the store. -/
theorem length_le_runAll (store : List Json) (reqs : List Req) :
    store.length ≤ (runAll store reqs).length := by
  induction reqs generalizing store with
  | nil => exact Nat.le_refl _
  | cons r rest ih =>
    exact Nat.le_trans (length_le_step store r) (ih (step store r).1)

/-- A sequence of successful POSTs appends exactly the posted values. -/
theorem runAll_posts (store : List Json) (vs : List Json) :
    runAll store (vs.map (fun v => Req.postItems (some v))) = store ++ vs := by
  induction vs generalizing store with
  | nil => simp [runAll]
  | cons v rest ih =>
    have h := ih (store ++ [v])
    simpa [runAll, step, handlePostItems] using h

/-- Claim C1: every JSON value V accepted by POST /items can be read back
unchanged: after the POST there is an index i at which the item lookup
returns status 200 with body `{"item": V}`, V structurally equal to the
posted value, nested structure included. -/
theorem postItems_roundTrip (store : List Json) (v : Json) :
    ∃ i : Nat,
      handleGetItem (step store (Req.postItems (some v))).1 i
        = ⟨200, Body.json (Json.obj [("item", v)])⟩ := by
  refine ⟨store.length, ?_⟩
  simp [step, handlePostItems, handleGetItem]

/-- Claim C2: for a store of length L, the item lookup at index i returns
status 200 with `{"item": <stored value at i>}` when `i < L`, and status 404
with exactly `{"error": "Item not found"}` when `i >= L`. -/
theorem getItem_indexAddressing (store : List Json) (i : Nat) :
    (∀ h : i < store.length,
        handleGetItem store i
          = ⟨200, Body.json (Json.obj [("item", store.get ⟨i, h⟩)])⟩)
  ∧ (store.length ≤ i →
        handleGetItem store i = ⟨404, Body.json notFoundJson⟩) := by
  constructor
  · intro h
    simp [handleGetItem, List.getElem?_eq_getElem h]
  · intro h
    simp [handleGetItem, List.getElem?_eq_none h]

/-- Witness for C2 at a concrete store of length 1. -/
theorem getItem_indexAddressing_witness :
    handleGetItem [Json.num 7] 0
      = ⟨200, Body.json (Json.obj [("item", Json.num 7)])⟩
  ∧ handleGetItem [Json.num 7] 1 = ⟨404, Body.json notFoundJson⟩ :=
  ⟨(getItem_indexAddressing [Json.num 7] 0).1 (by decide),
   (getItem_indexAddressing [Json.num 7] 1).2 (by decide)⟩

/-- Claim C3: a POST whose body parses as JSON appends the parsed value
unmodified at the end of the store, grows the length by exactly one, and
answers 201 with exactly `{"message": "Item added successfully"}`, whatever
the prior store and whatever the value (the empty object included). -/
theorem postItems_success (store : List Json) (v : Json) :
    step store (Req.postItems (some v))
      = (store ++ [v], ⟨201, Body.json addedMsg⟩)
  ∧ (step store (Req.postItems (some v))).1.length = store.length + 1 := by
  refine ⟨rfl, ?_⟩
  simp [step, handlePostItems]

/-- Claim C4: the store length never decreases across any request sequence,
and a sequence of N successful POSTs grows the length by exactly N. -/
theorem store_length_monotone :
    (∀ (store : List Json) (reqs : List Req),
        store.length ≤ (runAll store reqs).length)
  ∧ (∀ (store : List Json) (vs : List Json),
        (runAll store (vs.map (fun v => Req.postItems (some v)))).length
          = store.length + vs.length) := by
  refine ⟨length_le_runAll, fun store vs => ?_⟩
  simp [runAll_posts]

/-- Claim C5: a POST whose body is not valid JSON leaves the store unchanged
(nothing appended, same length) and is answered with a client-error status. -/
theorem postItems_malformed (store : List Json) :
    (step store (Req.postItems none)).1 = store
  ∧ 400 ≤ (step store (Req.postItems none)).2.status
  ∧ (step store (Req.postItems none)).2.status < 500 :=
  ⟨rfl, Nat.le_refl 400, by show (400 : Nat) < 500; decide⟩

/-- Claim C6: a `/items/<seg>` request whose segment does not match the
non-negative-integer route pattern (a negative number such as `-1`, or a
non-numeric string) is never routed into the item handler: the response is
the generic route-matching 404, its status is neither 200 nor the item
handler's shape, and its body is not the `{"error": "Item not found"}`
JSON document. -/
theorem getItem_badSegment (store : List Json) (seg : String)
    (h : parseIndex seg = none) :
    step store (Req.getItem seg) = (store, notFoundGeneric)
  ∧ notFoundGeneric.status = 404
  ∧ notFoundGeneric.status ≠ 200
  ∧ notFoundGeneric.body ≠ Body.json notFoundJson := by
  refine ⟨?_, rfl, by decide, by simp [notFoundGeneric]⟩
  simp [step, h]

/-- Witness for C6 at the concrete segment `-1` of the spec's example. -/
theorem getItem_badSegment_witness :
    parseIndex "-1" = none
  ∧ (step [] (Req.getItem "-1") = ([], notFoundGeneric)
      ∧ notFoundGeneric.status = 404
      ∧ notFoundGeneric.status ≠ 200
      ∧ notFoundGeneric.body ≠ Body.json notFoundJson) :=
  ⟨by decide, getItem_badSegment [] "-1" (by decide)⟩

/-- Claim C7: read requests (GET /, GET /items, GET /items/<seg>) do not
modify the store, and repeating the same read with no intervening POST gives
an identical response. -/
theorem reads_idempotent (store : List Json) (r : Req) (h : isRead r = true) :
    (step store r).1 = store
  ∧ (step (step store r).1 r).2 = (step store r).2 := by
  have h1 := step_fst_of_read store r h
  exact ⟨h1, by rw [h1]⟩

/-- Witness for C7 at the concrete read GET /items on the empty store. -/
theorem reads_idempotent_witness :
    isRead Req.getItems = true
  ∧ ((step [] Req.getItems).1 = []
      ∧ (step (step [] Req.getItems).1 Req.getItems).2
          = (step [] Req.getItems).2) :=
  ⟨rfl, reads_idempotent [] Req.getItems rfl⟩

/-! ## Theorems about the test fixture -/

/-- The retry loop starting at attempt `j` with `k` attempts left breaks out
exactly when some of the attempts `j, ..., j + k - 1` returns status 200. -/
theorem tryServer_eq_true_iff (att : Nat → Option Nat) (k j : Nat) :
    tryServer att j k = true
      ↔ ∃ i, j ≤ i ∧ i < j + k ∧ att i = some 200 := by
  induction k generalizing j with
  | zero =>
    simp only [tryServer]
    constructor
    · intro h; cases h
    · rintro ⟨i, h1, h2, _⟩; omega
  | succ k ih =>
    rcases hj : att j with _ | n
    · have hred : tryServer att j (k + 1) = tryServer att (j + 1) k := by
        rw [tryServer, hj]
      rw [hred, ih]
      constructor
      · rintro ⟨i, h1, h2, h3⟩
        exact ⟨i, by omega, by omega, h3⟩
      · rintro ⟨i, h1, h2, h3⟩
        refine ⟨i, ?_, by omega, h3⟩
        rcases Nat.eq_or_lt_of_le h1 with he | hl
        · subst he; rw [hj] at h3; cases h3
        · omega
    · have hred : tryServer att j (k + 1)
          = if n = 200 then true else tryServer att (j + 1) k := by
        rw [tryServer, hj]
      rw [hred]
      by_cases hn : n = 200
      · subst hn
        rw [if_pos rfl]
        constructor
        · intro _
          exact ⟨j, Nat.le_refl j, by omega, hj⟩
        · intro _; rfl
      · rw [if_neg hn, ih]
        constructor
        · rintro ⟨i, h1, h2, h3⟩
          exact ⟨i, by omega, by omega, h3⟩
        · rintro ⟨i, h1, h2, h3⟩
          refine ⟨i, ?_, by omega, h3⟩
          rcases Nat.eq_or_lt_of_le h1 with he | hl
          · subst he; rw [hj] at h3
            exact absurd (by injection h3) hn
          · omega

/-- Claim C10: the `base_url` fixture yields the base URL of the configured
port exactly when one of its at most four GET attempts on `/` returns status
200, and raises `RuntimeError` exactly otherwise; it only polls, it never
starts a server. -/
theorem baseUrl_fixture_behavior (att : Nat → Option Nat) (port : Nat) :
    (base_url att port
        = FixtureOutcome.yields ("http://localhost:" ++ toString port)
      ↔ ∃ i, i < 4 ∧ att i = some 200)
  ∧ (base_url att port = FixtureOutcome.raisesRuntimeError
      ↔ ¬ ∃ i, i < 4 ∧ att i = some 200) := by
  have h := tryServer_eq_true_iff att 4 0
  have h0 : tryServer att 0 4 = true ↔ ∃ i, i < 4 ∧ att i = some 200 := by
    rw [h]
    constructor
    · rintro ⟨i, _, h2, h3⟩; exact ⟨i, by omega, h3⟩
    · rintro ⟨i, h2, h3⟩; exact ⟨i, Nat.zero_le i, by omega, h3⟩
  rw [base_url]
  cases htb : tryServer att 0 4
  · rw [htb] at h0
    simp only [if_neg (Bool.false_ne_true)]
    constructor
    · constructor
      · intro hc; cases hc
      · intro he
        exact absurd (h0.mpr he) (by simp)
    · constructor
      · intro _
        intro he
        exact absurd (h0.mpr he) (by simp)
      · intro _; trivial
  · rw [htb] at h0
    simp only [if_pos rfl]
    constructor
    · constructor
      · intro _; exact h0.mp rfl
      · intro _; rfl
    · constructor
      · intro hc; cases hc
      · intro he
        exact absurd (h0.mp rfl) he

/-! ## Theorems about the compile checker -/

/-- The full path of a relative (directory components, file name) pair under
a root path. -/
def fullPath (pre : List String) (q : List String × String) : List String :=
  pre ++ q.1 ++ [q.2]

/-- Pass/fail partition for the files of one directory: successes plus
failures account exactly for the `.py` files. -/
theorem compileFilesAt_count (res : List String → Option String)
    (pre : List String) (fs : List String) :
    (compileFilesAt res pre fs).1 + (compileFilesAt res pre fs).2.length
      = (fs.filter (fun f => f.endsWith ".py")).length := by
  induction fs with
  | nil => rfl
  | cons f rest ih =>
    by_cases hf : f.endsWith ".py"
    · cases hr : res (pre ++ [f]) with
      | none => simp [compileFilesAt, hf, hr]; omega
      | some e => simp [compileFilesAt, hf, hr]; omega
    · simp [compileFilesAt, hf, ih]

/-- The failures recorded for one directory's files are exactly the `.py`
files the oracle rejects, in order. -/
theorem compileFilesAt_errorPaths (res : List String → Option String)
    (pre : List String) (fs : List String) :
    (compileFilesAt res pre fs).2.map Prod.fst
      = (fs.filter (fun f => f.endsWith ".py" && (res (pre ++ [f])).isSome)).map
          (fun f => pre ++ [f]) := by
  induction fs with
  | nil => rfl
  | cons f rest ih =>
    by_cases hf : f.endsWith ".py"
    · cases hr : res (pre ++ [f]) with
      | none => simp [compileFilesAt, hf, hr, ih]
      | some e => simp [compileFilesAt, hf, hr, ih]
    · simp [compileFilesAt, hf, ih]

/-- Filtering a list of relative files after prepending a directory
component: when the predicate ignores the new component pointwise, the
filter commutes with the prepending map. -/
theorem filter_map_consDir (P Q : List String × String → Bool) (n : String)
    (hPQ : ∀ q : List String × String, P (n :: q.1, q.2) = Q q)
    (l : List (List String × String)) :
    (l.map (fun q => (n :: q.1, q.2))).filter P
      = (l.filter Q).map (fun q => (n :: q.1, q.2)) := by
  induction l with
  | nil => rfl
  | cons q rest ih =>
    simp only [List.map_cons, List.filter_cons, hPQ q]
    cases hq : Q q <;> simp [hq, ih]

/-- Prepending a directory component that the predicate always rejects
filters to the empty list. -/
theorem filter_map_consDir_nil (P : List String × String → Bool) (n : String)
    (hP : ∀ q : List String × String, P (n :: q.1, q.2) = false)
    (l : List (List String × String)) :
    (l.map (fun q => (n :: q.1, q.2))).filter P = [] := by
  induction l with
  | nil => rfl
  | cons q rest ih => simp [List.filter_cons, hP q, ih]

/-- A file directly inside the walked root is eligible exactly when its name
ends in `.py`. -/
theorem eligiblePy_nil (f : String) :
    eligiblePy ([], f) = f.endsWith ".py" := by
  simp [eligiblePy]

/-- Under a directory named `__pycache__` nothing is eligible. -/
theorem eligiblePy_pycache (q : List String × String) :
    eligiblePy ("__pycache__" :: q.1, q.2) = false := by
  simp [eligiblePy]

/-- Under any other directory, eligibility is unchanged. -/
theorem eligiblePy_cons (n : String) (hn : n ≠ "__pycache__")
    (q : List String × String) :
    eligiblePy (n :: q.1, q.2) = eligiblePy q := by
  simp [eligiblePy, List.contains_cons, Ne.symm hn]

/-- Files mapped into the root position, filtered by eligibility, are the
`.py` files. -/
theorem filter_eligible_files (fs : List String) :
    ((fs.map (fun f => (([] : List String), f))).filter eligiblePy).length
      = (fs.filter (fun f => f.endsWith ".py")).length := by
  induction fs with
  | nil => rfl
  | cons f rest ih =>
    simp only [List.map_cons, List.filter_cons, eligiblePy_nil]
    cases hf : f.endsWith ".py" <;> simp [hf, ih]

mutual

/-- Pass/fail partition for the whole walk: compiled successes plus recorded
failures account exactly for the files whose name ends in `.py` and that do
not lie under any `__pycache__` directory. -/
theorem compile_python_files_count (res : List String → Option String)
    (pre : List String) (t : FTree) :
    (compile_python_files res pre t).1 + (compile_python_files res pre t).2.length
      = ((relFiles t).filter eligiblePy).length := by
  cases t with
  | node fs ds =>
    have hsub := compile_python_subdirs_count res pre ds
    have hfiles := compileFilesAt_count res pre fs
    have hmap := filter_eligible_files fs
    simp only [compile_python_files, relFiles, List.filter_append, List.length_append,
      List.length_append] at *
    omega

/-- Pass/fail partition for a subdirectory list. -/
theorem compile_python_subdirs_count (res : List String → Option String)
    (pre : List String) (ds : List (String × FTree)) :
    (compile_python_subdirs res pre ds).1 + (compile_python_subdirs res pre ds).2.length
      = ((relFilesSubdirs ds).filter eligiblePy).length := by
  cases ds with
  | nil => rfl
  | cons d rest =>
    cases d with
    | mk n t =>
      have hrest := compile_python_subdirs_count res pre rest
      by_cases hn : n = "__pycache__"
      · subst hn
        have hw : compile_python_subdirs res pre (("__pycache__", t) :: rest)
            = compile_python_subdirs res pre rest := by
          rw [compile_python_subdirs, if_pos rfl]
        have hnil := filter_map_consDir_nil eligiblePy "__pycache__"
          (fun q => eligiblePy_pycache q) (relFiles t)
        rw [hw, relFilesSubdirs, List.filter_append, hnil, List.nil_append]
        exact hrest
      · have ht := compile_python_files_count res (pre ++ [n]) t
        have hw : compile_python_subdirs res pre ((n, t) :: rest)
            = ((compile_python_files res (pre ++ [n]) t).1 + (compile_python_subdirs res pre rest).1,
               (compile_python_files res (pre ++ [n]) t).2 ++ (compile_python_subdirs res pre rest).2) := by
          rw [compile_python_subdirs, if_neg hn]
        have hcons := filter_map_consDir eligiblePy eligiblePy n
          (fun q => by simp only [eligiblePy_cons n hn q]) (relFiles t)
        rw [hw, relFilesSubdirs, List.filter_append, hcons]
        simp only [List.length_append, List.length_map]
        omega

end

/-- The full path of a file directly inside the root. -/
theorem fullPath_nil (pre : List String) (f : String) :
    fullPath pre (([] : List String), f) = pre ++ [f] := by
  simp [fullPath]

/-- Descending into subdirectory `n` shifts the root of the full path. -/
theorem fullPath_cons (pre : List String) (n : String)
    (q : List String × String) :
    fullPath pre (n :: q.1, q.2) = fullPath (pre ++ [n]) q := by
  simp [fullPath]

/-- Root-level files filtered by eligibility-and-failure are the failing
`.py` files, as full paths. -/
theorem filter_err_files (res : List String → Option String)
    (pre : List String) (fs : List String) :
    ((fs.map (fun f => (([] : List String), f))).filter
        (fun q => eligiblePy q && (res (fullPath pre q)).isSome)).map
        (fullPath pre)
      = (fs.filter (fun f => f.endsWith ".py" && (res (pre ++ [f])).isSome)).map
          (fun f => pre ++ [f]) := by
  induction fs with
  | nil => rfl
  | cons f rest ih =>
    have hq : (eligiblePy (([] : List String), f)
          && (res (fullPath pre (([] : List String), f))).isSome)
        = (f.endsWith ".py" && (res (pre ++ [f])).isSome) := by
      rw [eligiblePy_nil, fullPath_nil]
    simp only [List.map_cons, List.filter_cons, hq]
    cases hf : f.endsWith ".py" && (res (pre ++ [f])).isSome <;>
      simp [hf, ih, fullPath_nil]

mutual

/-- The failure paths of the whole walk are exactly the eligible files the
oracle rejects, rooted at the walked path, in walk order. -/
theorem compile_python_files_errorPaths (res : List String → Option String)
    (pre : List String) (t : FTree) :
    (compile_python_files res pre t).2.map Prod.fst
      = ((relFiles t).filter
            (fun q => eligiblePy q && (res (fullPath pre q)).isSome)).map
          (fullPath pre) := by
  cases t with
  | node fs ds =>
    have hsub := compile_python_subdirs_errorPaths res pre ds
    have hfiles := compileFilesAt_errorPaths res pre fs
    have hmap := filter_err_files res pre fs
    simp only [compile_python_files, relFiles, List.filter_append, List.map_append,
      hfiles, hsub, hmap]

/-- The failure paths of a subdirectory walk. -/
theorem compile_python_subdirs_errorPaths (res : List String → Option String)
    (pre : List String) (ds : List (String × FTree)) :
    (compile_python_subdirs res pre ds).2.map Prod.fst
      = ((relFilesSubdirs ds).filter
            (fun q => eligiblePy q && (res (fullPath pre q)).isSome)).map
          (fullPath pre) := by
  cases ds with
  | nil => rfl
  | cons d rest =>
    cases d with
    | mk n t =>
      have hrest := compile_python_subdirs_errorPaths res pre rest
      by_cases hn : n = "__pycache__"
      · subst hn
        have hw : compile_python_subdirs res pre (("__pycache__", t) :: rest)
            = compile_python_subdirs res pre rest := by
          rw [compile_python_subdirs, if_pos rfl]
        have hnil := filter_map_consDir_nil
          (fun q => eligiblePy q && (res (fullPath pre q)).isSome) "__pycache__"
          (fun q => by simp only [eligiblePy_pycache q, Bool.false_and])
          (relFiles t)
        rw [hw, relFilesSubdirs, List.filter_append, hnil, List.nil_append]
        exact hrest
      · have ht := compile_python_files_errorPaths res (pre ++ [n]) t
        have hw : compile_python_subdirs res pre ((n, t) :: rest)
            = ((compile_python_files res (pre ++ [n]) t).1 + (compile_python_subdirs res pre rest).1,
               (compile_python_files res (pre ++ [n]) t).2 ++ (compile_python_subdirs res pre rest).2) := by
          rw [compile_python_subdirs, if_neg hn]
        have hcons := filter_map_consDir
          (fun q => eligiblePy q && (res (fullPath pre q)).isSome)
          (fun q => eligiblePy q && (res (fullPath (pre ++ [n]) q)).isSome) n
          (fun q => by
            simp only [eligiblePy_cons n hn q, fullPath_cons pre n q])
          (relFiles t)
        have hmapmap : (((relFiles t).filter
              (fun q => eligiblePy q && (res (fullPath (pre ++ [n]) q)).isSome)).map
              (fun q => (n :: q.1, q.2))).map (fullPath pre)
            = ((relFiles t).filter
              (fun q => eligiblePy q && (res (fullPath (pre ++ [n]) q)).isSome)).map
              (fullPath (pre ++ [n])) := by
          rw [List.map_map]
          exact List.map_congr_left (fun q _ => fullPath_cons pre n q)
        rw [hw, relFilesSubdirs, List.filter_append, List.map_append,
          List.map_append, hcons, hmapmap, hrest, ht]

end

/-- Claim C9: `compile_python_files` attempts exactly the files whose names
end in `.py` and that are not under any `__pycache__` directory, and returns
`(compiled, errors)` with `compiled + errors.length` equal to the number of
those files — the failure paths being exactly the eligible files the
compiler oracle rejects. -/
theorem compile_python_files_partition (res : List String → Option String)
    (pre : List String) (t : FTree) :
    ((compile_python_files res pre t).1 + (compile_python_files res pre t).2.length
        = ((relFiles t).filter eligiblePy).length)
  ∧ ((compile_python_files res pre t).2.map Prod.fst
        = ((relFiles t).filter
              (fun q => eligiblePy q && (res (fullPath pre q)).isSome)).map
            (fullPath pre)) :=
  ⟨compile_python_files_count res pre t, compile_python_files_errorPaths res pre t⟩

/-- Claim C8: the checker's exit status is 0 or 1, it is 0 exactly when the
collected error list is empty, and 1 exactly when at least one walked file
failed to compile. -/
theorem compile_all_exit (res : List String → Option String) (runPy : Bool)
    (appDir testsDir : Option FTree) :
    (mainExitCode res runPy appDir testsDir = 0
        ∨ mainExitCode res runPy appDir testsDir = 1)
  ∧ (mainExitCode res runPy appDir testsDir = 0
        ↔ (mainRun res runPy appDir testsDir).2 = [])
  ∧ (mainExitCode res runPy appDir testsDir = 1
        ↔ (mainRun res runPy appDir testsDir).2 ≠ []) := by
  unfold mainExitCode
  by_cases h : (mainRun res runPy appDir testsDir).2 = [] <;> simp [h]
